import Mathlib

/-!
# Verification of the uc480 camera driver core (pylablib/devices/uc480/uc480.py)

This file gives a shallow embedding of the acquisition-geometry negotiator,
ring-buffer pool, acquisition lifecycle, pixel-format probing and frame-decoding
logic of the uc480 driver, and settles the specification claims about them.

Conventions:
* Python integers are modelled as `Int` (or `Nat` for bitmasks and counts).
* Python floor division `//` and modulo `%` are modelled by `Int.fdiv` and
  `Int.fmod`, which have exactly Python's floor-division semantics for all
  signs of the operands.
* Fallible Python code (exceptions) is modelled with `Except PyErr`.
* Code that mutates `self` is modelled by explicit state passing; where an
  exception can escape after a partial mutation, the function returns the
  mutated state alongside the error, mirroring the fact that the Python
  object keeps its partially-updated attributes when an exception propagates.
-/

namespace UC480

/-- Python exceptions that the modelled code can raise. -/
inductive PyErr where
  /-- `ValueError` (e.g. `max()` of an empty sequence). -/
  | valueError
  /-- `TypeError` (e.g. calling a non-callable, unpacking `None`). -/
  | typeError
  /-- `KeyError` (missing dictionary key). -/
  | keyError
  /-- `uc480LibError` carrying the SDK error code. -/
  | libError (code : Int)
  deriving DecidableEq, Repr

/-- Axis tag: the `"h"` / `"v"` keys used in the driver's mode tables. -/
inductive Axis where
  | h
  | v
  deriving DecidableEq, Repr

/-- The factors appearing in `_subsampling_modes` / `_binning_modes`
(`uc480.py` lines 345-352 and 384-391), in the ascending order in which each
axis's entries occur in those dictionaries. -/
def factorList : List Int := [1, 2, 3, 4, 5, 6, 8, 16]

/-- Modelled from the spec: the numeric values of the
`IS_SUBSAMPLING_nX_VERTICAL/HORIZONTAL` flags live in `uc480_defs.py` (vendor
SDK constants, outside the specified core).  Per the spec's AxisFactorSet
description they are per-factor bitmasks tested against a capability mask;
they are modelled as distinct single-bit flags.  The factor-1 entries are `0`
exactly as written literally in the driver's table (`uc480.py` line 345). -/
def subMask : Axis → Int → Nat
  | _, 1 => 0x0000
  | .v, 2 => 0x0001
  | .h, 2 => 0x0002
  | .v, 4 => 0x0004
  | .h, 4 => 0x0008
  | .v, 3 => 0x0010
  | .h, 3 => 0x0020
  | .v, 5 => 0x0040
  | .h, 5 => 0x0080
  | .v, 6 => 0x0100
  | .h, 6 => 0x0200
  | .v, 8 => 0x0400
  | .h, 8 => 0x0800
  | .v, 16 => 0x1000
  | .h, 16 => 0x2000
  | _, _ => 0

/-- Modelled from the spec: the `IS_BINNING_nX_VERTICAL/HORIZONTAL` flags of
`uc480_defs.py`, modelled as distinct single-bit flags; the factor-1 entries
are `0` exactly as written literally in the driver's table (`uc480.py`
line 384). -/
def binMask : Axis → Int → Nat
  | _, 1 => 0x0000
  | .v, 2 => 0x0001
  | .h, 2 => 0x0002
  | .v, 4 => 0x0004
  | .h, 4 => 0x0008
  | .v, 3 => 0x0010
  | .h, 3 => 0x0020
  | .v, 5 => 0x0040
  | .h, 5 => 0x0080
  | .v, 6 => 0x0100
  | .h, 6 => 0x0200
  | .v, 8 => 0x0400
  | .h, 8 => 0x0800
  | .v, 16 => 0x1000
  | .h, 16 => 0x2000
  | _, _ => 0

/-- The per-axis supported-factor list computed by the
`get_supported_*_modes` loops: the driver inserts into a set every factor `s`
of the mode table with `all_modes & mask == mask` and then sorts it.  Since
each axis's factors occur exactly once and ascending in `factorList`, the
sorted set equals this filter. -/
def supportedFactors (maskOf : Axis → Int → Nat) (a : Axis) (mask : Nat) : List Int :=
  factorList.filter (fun f => mask &&& maskOf a f == maskOf a f)

/-- `get_supported_subsampling_modes` (`uc480.py` lines 354-365): returns
`sorted(supp["h"]), sorted(supp["v"])`. -/
def get_supported_subsampling_modes (mask : Nat) : List Int × List Int :=
  (supportedFactors subMask .h mask, supportedFactors subMask .v mask)

/-- `get_supported_binning_modes` (`uc480.py` lines 393-404): the source
returns `sorted(supp["v"]), sorted(supp["h"])` — vertical first (line 404). -/
def get_supported_binning_modes (mask : Nat) : List Int × List Int :=
  (supportedFactors binMask .v mask, supportedFactors binMask .h mask)

/-- Python `max()` over a list: raises `ValueError` on an empty list. -/
def pymax : List Int → Except PyErr Int
  | [] => .error .valueError
  | x :: xs => .ok (xs.foldl max x)

/-- `_truncate_subsampling` (`uc480.py` lines 338-344): raise each request to
at least 1, then take the Python `max` of the supported factors that are `<=`
the request (which raises `ValueError` when no supported factor is that
small). -/
def truncate_subsampling (hsub vsub : Int) (all_modes : List Int × List Int) :
    Except PyErr (Int × Int) := do
  let hsub := max hsub 1
  let vsub := max vsub 1
  let hsub ← pymax (all_modes.1.filter (fun m => decide (m ≤ hsub)))
  let vsub ← pymax (all_modes.2.filter (fun m => decide (m ≤ vsub)))
  return (hsub, vsub)

/-! ## Geometry negotiation (`_adj_roi_axis` / `_trunc_roi`) -/

/-- Per-axis ROI limits as returned by `_get_roi_limits` (`uc480.py`
lines 441-445): `(smin, sstep, pstep)` = minimal size, size increment,
position increment. -/
structure AxisLims where
  smin : Int
  sstep : Int
  pstep : Int
  deriving DecidableEq, Repr

/-- Device geometry: detector size (`get_detector_size`, lines 422-425) and
the per-axis limits. -/
structure Geometry where
  wdet : Int
  hdet : Int
  hlims : AxisLims
  vlims : AxisLims
  deriving DecidableEq, Repr

/-- The binned-units body of `_adj_roi_axis` (`uc480.py` lines 452-461): the
steps after `start`, `end` and `detsize` have been divided by `binv` and
before the results are scaled back.  `s1`/`e1` are the binned start/end, `d`
the binned detector size.  Python `%` is `Int.fmod` (floor-convention
remainder). -/
def adjCore (s1 e1 minsize d wstep pstep : Int) : Int × Int :=
  let e2 := min e1 d
  let s2 := min s1 d
  let s3 := s2 - s2.fmod pstep
  let e3 := e2 - e2.fmod pstep
  let e4 := e3 - (e3 - s3).fmod wstep
  let e5 := if e4 - s3 < minsize then s3 + minsize else e4
  if e5 > d then (d - minsize, d) else (s3, e5)

/-- `_adj_roi_axis` (`uc480.py` lines 446-462).  `stop` is the source's `end`
parameter (a Lean keyword): `None` defaults to the full unbinned detector
extent.  Python `//` is `Int.fdiv` (floor division). -/
def adj_roi_axis (start : Int) (stop : Option Int) (minsize detsize wstep pstep binv : Int) :
    Int × Int :=
  let e0 := (stop.getD detsize).fdiv binv
  let s0 := start.fdiv binv
  let d := detsize.fdiv binv
  let r := adjCore s0 e0 minsize d wstep pstep
  (r.1 * binv, r.2 * binv)

/-- `_trunc_roi` (`uc480.py` lines 463-469), parameterized by the device
geometry and by the supported factor lists that `_truncate_roi_binning`
(lines 438-440) obtains from `get_supported_subsampling_modes` or
`get_supported_binning_modes` depending on `_roi_binning_mode`. -/
def trunc_roi (g : Geometry) (modes : List Int × List Int)
    (hstart : Int) (hstop : Option Int) (vstart : Int) (vstop : Option Int)
    (hbin vbin : Int) : Except PyErr (Int × Int × Int × Int × Int × Int) := do
  let (hb, vb) ← truncate_subsampling hbin vbin modes
  let (hs, he) := adj_roi_axis hstart hstop g.hlims.smin g.wdet g.hlims.sstep g.hlims.pstep hb
  let (vs, ve) := adj_roi_axis vstart vstop g.vlims.smin g.hdet g.vlims.sstep g.vlims.pstep vb
  return (hs, he, vs, ve, hb, vb)

/-- Spec-side predicate, stating the claim's ROIConfig invariants for one
axis of a returned (unbinned-coordinates) ROI: binned span `>= minSize`,
binned start a multiple of `positionStep`, binned span a multiple of
`sizeStep`, binned end `<=` detector extent divided by the factor. -/
abbrev axisValid (l : AxisLims) (det b s e : Int) : Prop :=
  l.smin ≤ e.fdiv b - s.fdiv b ∧
  (s.fdiv b).fmod l.pstep = 0 ∧
  (e.fdiv b - s.fdiv b).fmod l.sstep = 0 ∧
  e.fdiv b ≤ det.fdiv b

/-- Spec-side predicate: all ROIConfig invariants of the claim, including
membership of both factors in the supported factor lists.  The tuple is
`(hstart, hend, vstart, vend, hbin, vbin)` as returned by `_trunc_roi`. -/
abbrev roiValid (g : Geometry) (modes : List Int × List Int)
    (r : Int × Int × Int × Int × Int × Int) : Prop :=
  axisValid g.hlims g.wdet r.2.2.2.2.1 r.1 r.2.1 ∧
  axisValid g.vlims g.hdet r.2.2.2.2.2 r.2.2.1 r.2.2.2.1 ∧
  r.2.2.2.2.1 ∈ modes.1 ∧ r.2.2.2.2.2 ∈ modes.2

/-! ## Acquisition stop (`stop_acquisition`) -/

/-- Calling a Python attribute that holds a boolean: `bool` objects are not
callable, so the call raises `TypeError`.  Every assignment to
`self._acq_in_progress` in `uc480.py` stores a boolean (`True` at line 58 and
319, `False` at line 325), so the attribute is modelled with type `Bool`. -/
def callBoolAttr (_ : Bool) : Except PyErr Bool := .error .typeError

/-- The controller state touched by `stop_acquisition`: the
`_acq_in_progress` flag, the last acquired-frame count pushed into the frame
counter, and the number of `is_StopLiveVideo` device commands issued. -/
structure AcqState where
  acq_in_progress : Bool
  acquired_update : Option Int
  stop_cmds : Nat
  deriving DecidableEq, Repr

/-- `__init__` (`uc480.py` line 58): `self._acq_in_progress=True`. -/
def initAcqState : AcqState :=
  { acq_in_progress := true, acquired_update := none, stop_cmds := 0 }

/-- `stop_acquisition` (`uc480.py` lines 321-325): evaluates
`self._acq_in_progress()` — a call on the boolean attribute — and, were the
call to yield a truthy value, would sample the device frame count, issue
`is_StopLiveVideo` and clear the flag.  `dev_acquired` is the device's
current acquired-frame count (`_get_acquired_frames`). -/
def stop_acquisition (dev_acquired : Int) (s : AcqState) : Except PyErr AcqState := do
  let c ← callBoolAttr s.acq_in_progress
  if c then
    return { acq_in_progress := false, acquired_update := some dev_acquired,
             stop_cmds := s.stop_cmds + 1 }
  else
    return s

/-! ## Ring-buffer pool (`_allocate_buffers` / `_deallocate_buffers`) -/

/-- Buffer-pool state: `buffers` is `self._buffers` (`None` or the list of
allocated handles), `seq` the handles currently registered in the device
capture sequence (`is_AddToSequence` / `is_ClearSequence`), `freed` the
handles released with `is_FreeImageMem` so far. -/
structure BufState where
  buffers : Option (List Nat)
  seq : List Nat
  freed : List Nat
  deriving DecidableEq, Repr

/-- `_deallocate_buffers` (`uc480.py` lines 122-127): no-op when
`self._buffers is None`; otherwise clears the capture sequence, frees every
buffer and sets `self._buffers=None`. -/
def deallocate_buffers (s : BufState) : BufState :=
  match s.buffers with
  | none => s
  | some bs => { buffers := none, seq := [], freed := s.freed ++ bs }

/-- The `for _ in range(n)` loop of `_allocate_buffers` (`uc480.py`
lines 118-120): each iteration calls `is_AllocImageMem` (modelled by
`allocOk i` deciding whether the device accepts allocation number `i`, the
handle being the allocation index) and registers the new buffer with
`is_AddToSequence`.  A rejected allocation raises `uc480LibError`; the loop
has no handler, so the partially-updated state is returned alongside the
error. -/
def allocLoop (allocOk : Nat → Bool) : Nat → Nat → BufState → Except PyErr Unit × BufState
  | 0, _, s => (.ok (), s)
  | k + 1, i, s =>
      if allocOk i then
        allocLoop allocOk k (i + 1)
          { s with buffers := some ((s.buffers.getD []) ++ [i]), seq := s.seq ++ [i] }
      else
        (.error (.libError 1), s)

/-- `_allocate_buffers` (`uc480.py` lines 113-121): deallocates any existing
pool, sets `self._buffers=[]`, then allocates and registers `n` buffers. -/
def allocate_buffers (allocOk : Nat → Bool) (n : Nat) (s : BufState) :
    Except PyErr Nat × BufState :=
  let s1 := deallocate_buffers s
  let s2 := { s1 with buffers := some ([] : List Nat) }
  match allocLoop allocOk n 0 s2 with
  | (.ok _, s3) => (.ok n, s3)
  | (.error e, s3) => (.error e, s3)

/-! ## Binning / subsampling setters -/

/-- Hardware-side binning/subsampling factors of the device. -/
structure ModeState where
  sub : Int × Int
  bin : Int × Int
  deriving DecidableEq, Repr

/-- Modelled from the spec: `lib.is_SetSubSampling` applied with the factor
mask encoded by `set_subsampling` (`uc480.py` line 379-380).  The vendor SDK
call is outside the repository; per the driver docstring ("Automatically
turns off binning", line 376) and the spec's mutual-exclusivity requirement,
activating any non-1 subsampling factor resets the binning factors to
`(1,1)`, while applying the trivial `(1,1)` subsampling leaves binning
untouched. -/
def lib_SetSubSampling (f : Int × Int) (s : ModeState) : ModeState :=
  { sub := f, bin := if f = (1, 1) then s.bin else (1, 1) }

/-- Modelled from the spec: `lib.is_SetBinning` applied with the factor mask
encoded by `set_binning` (`uc480.py` lines 418-419); per the driver docstring
("Automatically turns off subsampling", line 415) activating any non-1
binning factor resets the subsampling factors to `(1,1)`. -/
def lib_SetBinning (f : Int × Int) (s : ModeState) : ModeState :=
  { bin := f, sub := if f = (1, 1) then s.sub else (1, 1) }

/-- `set_subsampling` (`uc480.py` lines 371-381): truncates the request
against the supported subsampling modes and applies it to the device. -/
def set_subsampling (modes : List Int × List Int) (hsub vsub : Int) (s : ModeState) :
    Except PyErr ModeState := do
  let f ← truncate_subsampling hsub vsub modes
  return lib_SetSubSampling f s

/-- `set_binning` (`uc480.py` lines 410-420): truncates the request (the
source reuses `_truncate_subsampling`, line 417) against the supported
binning modes and applies it to the device. -/
def set_binning (modes : List Int × List Int) (hbin vbin : Int) (s : ModeState) :
    Except PyErr ModeState := do
  let f ← truncate_subsampling hbin vbin modes
  return lib_SetBinning f s

/-- The `_roi_binning_mode` flag chosen in `__init__` (lines 62-67). -/
inductive RoiBinningMode where
  | bin
  | subsample
  deriving DecidableEq, Repr

/-- `_set_roi_binning` (`uc480.py` lines 431-437): sets the active mode with
the requested factors and explicitly resets the other mode via a call with
the default `(1,1)` factors. -/
def set_roi_binning (m : RoiBinningMode) (submodes binmodes : List Int × List Int)
    (hbin vbin : Int) (s : ModeState) : Except PyErr ModeState := do
  match m with
  | .subsample =>
      let s ← set_subsampling submodes hbin vbin s
      set_binning binmodes 1 1 s
  | .bin =>
      let s ← set_subsampling submodes 1 1 s
      set_binning binmodes hbin vbin s

/-! ## Frame decoding (`_read_buffer` / `_mode_properties`) -/

/-- The `_mode_properties` table (`uc480.py` lines 238-245): for each color
mode name, `(bits per pixel, channels per pixel)`, with a `None` entry for
the modes that need additional decoding (`cbycryp`, `jpeg`, `rgb8plan`). -/
def mode_properties : String → Option (Option (Nat × Nat))
  | "raw8" => some (some (8, 1))
  | "raw10" => some (some (16, 1))
  | "raw12" => some (some (16, 1))
  | "raw16" => some (some (16, 1))
  | "mono8" => some (some (8, 1))
  | "mono10" => some (some (16, 1))
  | "mono12" => some (some (16, 1))
  | "mono16" => some (some (16, 1))
  | "bgr5p" => some (some (16, 1))
  | "bgr565p" => some (some (16, 1))
  | "rgb8p" => some (some (24, 3))
  | "bgr8p" => some (some (24, 3))
  | "rgba8p" => some (some (32, 4))
  | "bgra8p" => some (some (32, 4))
  | "rgby8p" => some (some (32, 4))
  | "bgry8p" => some (some (32, 4))
  | "rgb10p" => some (some (24, 1))
  | "bgr10p" => some (some (24, 1))
  | "rgb10up" => some (some (48, 3))
  | "bgr10up" => some (some (48, 3))
  | "rgb12up" => some (some (48, 3))
  | "bgr12up" => some (some (48, 3))
  | "rgba12up" => some (some (64, 4))
  | "bgra12up" => some (some (64, 4))
  | "cbycryp" => some none
  | "uyuvp" => some (some (32, 4))
  | "uyvy_monop" => some (some (32, 4))
  | "uyuv_bayerp" => some (some (32, 4))
  | "jpeg" => some none
  | "rgb8plan" => some none
  | _ => none

/-- The `_np_dtypes` table (`uc480.py` line 511), mapping per-channel bit
width to the numpy dtype's element byte width (`u1`, `<u2`, `<u4`). -/
def np_dtypes : Nat → Option Nat
  | 8 => some 1
  | 16 => some 2
  | 32 => some 4
  | _ => none

/-- `_get_pixel_mode_settings` (`uc480.py` lines 246-256) for a mode name:
a missing key raises `KeyError`; a `None` entry makes the caller's unpacking
`bpp,nchan=...` raise `TypeError`. -/
def get_pixel_mode_settings (mode : String) : Except PyErr (Nat × Nat) :=
  match mode_properties mode with
  | none => .error .keyError
  | some none => .error .typeError
  | some (some pr) => .ok pr

/-- The shape/dtype computation of `_read_buffer` (`uc480.py` lines 512-519):
shape is `(height, width)` plus a trailing channel count when `nchan > 1`,
and the element type is `_np_dtypes[bpp // nchan]` (a `KeyError` when the
per-channel width is not 8, 16 or 32 bits).  Returns the shape and the
element byte width of the decoded array. -/
def read_buffer_decode (mode : String) (width height : Nat) :
    Except PyErr (List Nat × Nat) := do
  let pr ← get_pixel_mode_settings mode
  let shape := if pr.2 > 1 then [height, width, pr.2] else [height, width]
  match np_dtypes (pr.1 / pr.2) with
  | none => .error .keyError
  | some elemw => return (shape, elemw)

/-! ## Color-mode probing (`_check_all_color_modes`) -/

/-- The probe loop of `_check_all_color_modes` (`uc480.py` lines 196-204).
`resp` is the device's response to `is_SetColorMode(m, check=True)`: either
the mode code actually applied (read back via `IS_GET_COLOR_MODE`) or a
`uc480LibError` code; a failed set leaves the active mode unchanged.  Error
codes other than `IS_INVALID_COLOR_FORMAT` (`invalid`) re-raise, carrying the
active mode at that moment out of the function; `IS_INVALID_COLOR_FORMAT` is
swallowed and the loop continues. -/
def probeLoop (invalid : Int) (resp : Int → Except Int Int) :
    List (String × Int) → Int → List String → Except (Int × Int) (List String × Int)
  | [], cur, acc => .ok (acc.reverse, cur)
  | (n, m) :: rest, cur, acc =>
      match resp m with
      | .ok applied => probeLoop invalid resp rest applied (if m = applied then n :: acc else acc)
      | .error c =>
          if c = invalid then probeLoop invalid resp rest cur acc
          else .error (c, cur)

/-- `_check_all_color_modes` (`uc480.py` lines 193-206): reads the current
mode `m0`, probes every candidate, and finally calls
`lib.is_SetColorMode(self.hcam, m0)` without `check=True` (an error there is
ignored and leaves the mode unchanged).  Returns the supported names together
with the device's final active color mode; a re-raised probe error carries
the error code and the active mode at the raise. -/
def check_all_color_modes (invalid : Int) (resp : Int → Except Int Int)
    (candidates : List (String × Int)) (m0 : Int) :
    Except (Int × Int) (List String × Int) :=
  match probeLoop invalid resp candidates m0 [] with
  | .ok (names, cur) =>
      match resp m0 with
      | .ok a => .ok (names, a)
      | .error _ => .ok (names, cur)
  | .error e => .error e

/-! ## Helper lemmas about `pymax` -/

theorem le_foldl_max : ∀ (xs : List Int) (a : Int), a ≤ xs.foldl max a
  | [], a => le_refl a
  | x :: xs, a => le_trans (le_max_left a x) (le_foldl_max xs (max a x))

theorem foldl_max_ub : ∀ (xs : List Int) (a y : Int), y ∈ xs → y ≤ xs.foldl max a
  | [], _, _, hy => nomatch hy
  | x :: xs, a, y, hy => by
      cases hy with
      | head => exact le_trans (le_max_right a x) (le_foldl_max xs (max a x))
      | tail _ h => exact foldl_max_ub xs (max a x) y h

theorem foldl_max_mem : ∀ (xs : List Int) (a : Int),
    xs.foldl max a = a ∨ xs.foldl max a ∈ xs
  | [], _ => Or.inl rfl
  | x :: xs, a => by
      rcases foldl_max_mem xs (max a x) with h | h
      · rcases max_cases a x with ⟨he, _⟩ | ⟨he, _⟩
        · rw [List.foldl_cons, h, he]; exact Or.inl rfl
        · rw [List.foldl_cons, h, he]; exact Or.inr (List.mem_cons_self x xs)
      · exact Or.inr (List.mem_cons_of_mem x h)

/-- If `pymax` succeeds, the result is an element of the list and an upper
bound of it. -/
theorem pymax_ok_spec {l : List Int} {x : Int} (h : pymax l = .ok x) :
    x ∈ l ∧ ∀ y ∈ l, y ≤ x := by
  cases l with
  | nil => simp [pymax] at h
  | cons a xs =>
      simp only [pymax, Except.ok.injEq] at h
      subst h
      constructor
      · rcases foldl_max_mem xs a with h | h
        · rw [h]; exact List.mem_cons_self a xs
        · exact List.mem_cons_of_mem a h
      · intro y hy
        cases hy with
        | head => exact le_foldl_max xs a
        | tail _ h => exact foldl_max_ub xs a y h

/-- `pymax` returns exactly the element that bounds the whole list. -/
theorem pymax_eq_ok {l : List Int} {x : Int} (hx : x ∈ l) (hub : ∀ y ∈ l, y ≤ x) :
    pymax l = .ok x := by
  cases l with
  | nil => cases hx
  | cons a xs =>
      have hspec := pymax_ok_spec (show pymax (a :: xs) = .ok (xs.foldl max a) from rfl)
      have h1 : xs.foldl max a ≤ x := hub _ hspec.1
      have h2 : x ≤ xs.foldl max a := hspec.2 x hx
      simp [pymax, le_antisymm h1 h2]

/-- Characterization of a successful `_truncate_subsampling` call: whenever
both supported lists contain the factor 1, the call succeeds and returns, per
axis, the largest supported factor `≤ max(request, 1)` (which is `≥ 1`). -/
theorem truncate_subsampling_ok (hsub vsub : Int) (modes : List Int × List Int)
    (h1 : 1 ∈ modes.1) (h2 : 1 ∈ modes.2) :
    ∃ hb vb, truncate_subsampling hsub vsub modes = .ok (hb, vb) ∧
      (hb ∈ modes.1 ∧ 1 ≤ hb ∧ hb ≤ max hsub 1 ∧
        ∀ m ∈ modes.1, m ≤ max hsub 1 → m ≤ hb) ∧
      (vb ∈ modes.2 ∧ 1 ≤ vb ∧ vb ≤ max vsub 1 ∧
        ∀ m ∈ modes.2, m ≤ max vsub 1 → m ≤ vb) := by
  have hmemh : (1 : Int) ∈ modes.1.filter (fun m => decide (m ≤ max hsub 1)) :=
    List.mem_filter.mpr ⟨h1, by simp⟩
  have hmemv : (1 : Int) ∈ modes.2.filter (fun m => decide (m ≤ max vsub 1)) :=
    List.mem_filter.mpr ⟨h2, by simp⟩
  obtain ⟨hb, hhb⟩ : ∃ x, pymax (modes.1.filter (fun m => decide (m ≤ max hsub 1))) = .ok x := by
    cases hl : modes.1.filter (fun m => decide (m ≤ max hsub 1)) with
    | nil => rw [hl] at hmemh; cases hmemh
    | cons a xs => exact ⟨xs.foldl max a, rfl⟩
  obtain ⟨vb, hvb⟩ : ∃ x, pymax (modes.2.filter (fun m => decide (m ≤ max vsub 1))) = .ok x := by
    cases hl : modes.2.filter (fun m => decide (m ≤ max vsub 1)) with
    | nil => rw [hl] at hmemv; cases hmemv
    | cons a xs => exact ⟨xs.foldl max a, rfl⟩
  have hspec := pymax_ok_spec hhb
  have vspec := pymax_ok_spec hvb
  refine ⟨hb, vb, ?_, ?_, ?_⟩
  · simp only [truncate_subsampling, bind, Except.bind, hhb, hvb, pure, Except.pure]
  · refine ⟨(List.mem_filter.mp hspec.1).1, hspec.2 1 hmemh, ?_, ?_⟩
    · have := (List.mem_filter.mp hspec.1).2
      simpa using this
    · intro m hm hmle
      exact hspec.2 m (List.mem_filter.mpr ⟨hm, by simpa using hmle⟩)
  · refine ⟨(List.mem_filter.mp vspec.1).1, vspec.2 1 hmemv, ?_, ?_⟩
    · have := (List.mem_filter.mp vspec.1).2
      simpa using this
    · intro m hm hmle
      exact vspec.2 m (List.mem_filter.mpr ⟨hm, by simpa using hmle⟩)

/-- Factor 1 is always in the per-axis supported list, for any capability
mask: its table mask is 0 and `mask &&& 0 == 0`. -/
theorem one_mem_supportedFactors (maskOf : Axis → Int → Nat) (a : Axis) (mask : Nat)
    (h0 : maskOf a 1 = 0) : 1 ∈ supportedFactors maskOf a mask := by
  refine List.mem_filter.mpr ⟨by simp [factorList], ?_⟩
  simp [h0, Nat.and_zero]

theorem one_mem_sub_h (mask : Nat) : 1 ∈ (get_supported_subsampling_modes mask).1 :=
  one_mem_supportedFactors subMask .h mask rfl

theorem one_mem_sub_v (mask : Nat) : 1 ∈ (get_supported_subsampling_modes mask).2 :=
  one_mem_supportedFactors subMask .v mask rfl

theorem one_mem_bin_1 (mask : Nat) : 1 ∈ (get_supported_binning_modes mask).1 :=
  one_mem_supportedFactors binMask .v mask rfl

theorem one_mem_bin_2 (mask : Nat) : 1 ∈ (get_supported_binning_modes mask).2 :=
  one_mem_supportedFactors binMask .h mask rfl

/-- A pair of already-supported factors `≥ 1` is a fixed point of
`_truncate_subsampling`. -/
theorem truncate_subsampling_fixed (modes : List Int × List Int) (hb vb : Int)
    (hmemh : hb ∈ modes.1) (hmemv : vb ∈ modes.2) (h1h : 1 ≤ hb) (h1v : 1 ≤ vb) :
    truncate_subsampling hb vb modes = .ok (hb, vb) := by
  have hmaxh : max hb 1 = hb := max_eq_left h1h
  have hmaxv : max vb 1 = vb := max_eq_left h1v
  have hph : pymax (modes.1.filter (fun m => decide (m ≤ max hb 1))) = .ok hb := by
    refine pymax_eq_ok (List.mem_filter.mpr ⟨hmemh, by simp [hmaxh]⟩) ?_
    intro y hy
    have := (List.mem_filter.mp hy).2
    rw [hmaxh] at this
    simpa using this
  have hpv : pymax (modes.2.filter (fun m => decide (m ≤ max vb 1))) = .ok vb := by
    refine pymax_eq_ok (List.mem_filter.mpr ⟨hmemv, by simp [hmaxv]⟩) ?_
    intro y hy
    have := (List.mem_filter.mp hy).2
    rw [hmaxv] at this
    simpa using this
  simp only [truncate_subsampling, bind, Except.bind, hph, hpv, pure, Except.pure]

/-! ## Arithmetic lemmas about the per-axis adjustment -/

theorem dvd_sub_fmod (x q : Int) (hq : 0 < q) : q ∣ (x - x.fmod q) := by
  rw [Int.fmod_eq_emod _ hq.le, Int.emod_def]
  exact ⟨x / q, by ring⟩

theorem sub_fmod_le (x q : Int) (hq : 0 < q) : x - x.fmod q ≤ x := by
  have h := Int.emod_nonneg x hq.ne'
  rw [Int.fmod_eq_emod _ hq.le]
  omega

theorem fmod_eq_zero_of_dvd {x q : Int} (hq : 0 < q) (h : q ∣ x) : x.fmod q = 0 := by
  rw [Int.fmod_eq_emod _ hq.le]
  exact Int.emod_eq_zero_of_dvd h

theorem dvd_fmod {x q r : Int} (hr : 0 < r) (hx : q ∣ x) (hqr : q ∣ r) : q ∣ x.fmod r := by
  rw [Int.fmod_eq_emod _ hr.le, Int.emod_def]
  exact dvd_sub hx (hqr.mul_right _)

/-- A valid configuration (both endpoints inside the binned detector,
aligned to the position step, span aligned to the size step and at least the
minimal size) is a fixed point of the binned-units adjustment. -/
theorem adjCore_fixed (s' e' m d w p : Int) (hp : 0 < p) (hw : 0 < w)
    (h1 : s' ≤ d) (h2 : e' ≤ d) (h3 : p ∣ s') (h4 : p ∣ e')
    (h5 : w ∣ (e' - s')) (h6 : m ≤ e' - s') :
    adjCore s' e' m d w p = (s', e') := by
  have hs : s'.fmod p = 0 := fmod_eq_zero_of_dvd hp h3
  have he : e'.fmod p = 0 := fmod_eq_zero_of_dvd hp h4
  have hsp : (e' - s').fmod w = 0 := fmod_eq_zero_of_dvd hw h5
  simp only [adjCore, min_eq_left h2, min_eq_left h1, hs, he, sub_zero, hsp]
  simp only [if_neg (not_lt.mpr h6), gt_iff_lt, if_neg (not_lt.mpr h2)]

/-- Facts about the output of the binned-units adjustment: the binned end
never exceeds the binned detector size, the span is at least the minimal
size, and — under the corresponding divisibility assumptions on the geometry
— the start stays inside the detector and start/end/span are aligned. -/
theorem adjCore_facts (s1 e1 m d w p : Int) (hp : 0 < p) (hw : 0 < w) :
    ∃ s e : Int, adjCore s1 e1 m d w p = (s, e) ∧
      m ≤ e - s ∧ e ≤ d ∧ (0 ≤ m → s ≤ d) ∧
      (w ∣ m → w ∣ (e - s)) ∧
      (p ∣ (d - m) → p ∣ s) ∧
      (p ∣ w → w ∣ m → p ∣ d → p ∣ e) := by
  simp only [adjCore]
  set A := min s1 d with hA
  set B := min e1 d with hB
  set S := A - A.fmod p with hS
  set E3 := B - B.fmod p with hE3
  set E4 := E3 - (E3 - S).fmod w with hE4
  have hAd : A ≤ d := min_le_right s1 d
  have hBd : B ≤ d := min_le_right e1 d
  have hSdvd : p ∣ S := dvd_sub_fmod A p hp
  have hSd : S ≤ d := le_trans (sub_fmod_le A p hp) hAd
  have hE3dvd : p ∣ E3 := dvd_sub_fmod B p hp
  have hE3d : E3 ≤ d := le_trans (sub_fmod_le B p hp) hBd
  have hE4d : E4 ≤ d := by
    have hknn : 0 ≤ (E3 - S).fmod w := by
      rw [Int.fmod_eq_emod _ hw.le]
      exact Int.emod_nonneg _ hw.ne'
    rw [hE4]
    linarith
  have hE4span : w ∣ (E4 - S) := by
    have h := dvd_sub_fmod (E3 - S) w hw
    have : E4 - S = (E3 - S) - (E3 - S).fmod w := by rw [hE4]; ring
    rw [this]
    exact h
  have hE4dvd : p ∣ w → p ∣ E4 := by
    intro hpw
    exact dvd_sub hE3dvd (dvd_fmod hw (dvd_sub hE3dvd hSdvd) hpw)
  by_cases hc1 : E4 - S < m
  · by_cases hc2 : S + m > d
    · refine ⟨d - m, d, ?_, ?_, le_refl d, ?_, ?_, ?_, ?_⟩
      · simp only [if_pos hc1, gt_iff_lt, if_pos hc2]
      · omega
      · intro hm; omega
      · intro hwm; simpa using hwm
      · intro hpd; exact hpd
      · intro _ hwm hpd; exact hpd
    · refine ⟨S, S + m, ?_, by omega, by omega, fun _ => hSd, ?_, fun _ => hSdvd, ?_⟩
      · simp only [if_pos hc1, gt_iff_lt, if_neg hc2]
      · intro hwm; simpa using hwm
      · intro hpw hwm _
        exact dvd_add hSdvd (dvd_trans hpw hwm)
  · refine ⟨S, E4, ?_, not_lt.mp hc1, hE4d, fun _ => hSd, fun _ => hE4span, fun _ => hSdvd, ?_⟩
    · simp only [if_neg hc1, gt_iff_lt, if_neg (not_lt.mpr hE4d)]
    · intro hpw hwm _
      exact hE4dvd hpw

/-- Output shape and facts for `_adj_roi_axis`: the result is the adjusted
binned pair scaled back by the factor. -/
theorem adj_roi_axis_facts (start : Int) (stop : Option Int) (m det w p b : Int)
    (hp : 0 < p) (hw : 0 < w) :
    ∃ s e : Int, adj_roi_axis start stop m det w p b = (s * b, e * b) ∧
      m ≤ e - s ∧ e ≤ det.fdiv b ∧ (0 ≤ m → s ≤ det.fdiv b) ∧
      (w ∣ m → w ∣ (e - s)) ∧
      (p ∣ (det.fdiv b - m) → p ∣ s) ∧
      (p ∣ w → w ∣ m → p ∣ det.fdiv b → p ∣ e) := by
  obtain ⟨s, e, heq, hf⟩ :=
    adjCore_facts (start.fdiv b) ((stop.getD det).fdiv b) m (det.fdiv b) w p hp hw
  exact ⟨s, e, by simp only [adj_roi_axis, heq], hf⟩

/-- Cancellation of the scale-back: dividing the returned unbinned
coordinate by the factor recovers the binned one. -/
theorem mul_fdiv_cancel_pos (s b : Int) (hb : 0 < b) : (s * b).fdiv b = s := by
  rw [Int.fdiv_eq_ediv _ hb.le]
  exact Int.mul_ediv_cancel s hb.ne'

/-! ## Claim theorems -/

/-- C1 (counterexample): the claim fails as universally stated.  With
detector size 10, `minSize=3`, `sizeStep=4`, `positionStep=2` on both axes,
supported factors `{1}` (capability mask 0), the request
`(0, 3, 0, 3, 1, 1)` negotiates to `(0, 3, 0, 3, 1, 1)`, whose binned span 3
is not a multiple of `sizeStep=4` — the span-alignment invariant is
violated. -/
theorem trunc_roi_not_always_valid :
    trunc_roi ⟨10, 10, ⟨3, 4, 2⟩, ⟨3, 4, 2⟩⟩ (get_supported_subsampling_modes 0)
        0 (some 3) 0 (some 3) 1 1 = .ok (0, 3, 0, 3, 1, 1) ∧
    ¬ roiValid ⟨10, 10, ⟨3, 4, 2⟩, ⟨3, 4, 2⟩⟩ (get_supported_subsampling_modes 0)
        (0, 3, 0, 3, 1, 1) := by
  constructor
  · rfl
  · intro h
    exact absurd h.1.2.2.1 (by decide)

/-- C1 (amended): for every request and every geometry whose limits are
self-consistent — positive steps, `sizeStep ∣ minSize`, and
`positionStep ∣ (binned detector extent − minSize)` for every supported
factor — and every supported factor list containing 1 (as every
capability-mask-derived list does), `_trunc_roi` succeeds and its result
satisfies all ROIConfig invariants. -/
theorem trunc_roi_valid (g : Geometry) (modes : List Int × List Int)
    (hstart vstart hbin vbin : Int) (hstop vstop : Option Int)
    (h1 : 1 ∈ modes.1) (h2 : 1 ∈ modes.2)
    (hpp : 0 < g.hlims.pstep) (hwp : 0 < g.hlims.sstep)
    (vpp : 0 < g.vlims.pstep) (vwp : 0 < g.vlims.sstep)
    (hwm : g.hlims.sstep ∣ g.hlims.smin) (vwm : g.vlims.sstep ∣ g.vlims.smin)
    (hpd : ∀ bb ∈ modes.1, g.hlims.pstep ∣ (g.wdet.fdiv bb - g.hlims.smin))
    (vpd : ∀ bb ∈ modes.2, g.vlims.pstep ∣ (g.hdet.fdiv bb - g.vlims.smin)) :
    ∃ r, trunc_roi g modes hstart hstop vstart vstop hbin vbin = .ok r ∧
      roiValid g modes r := by
  obtain ⟨hb, vb, ht, ⟨hmemh, h1h, _, _⟩, ⟨hmemv, h1v, _, _⟩⟩ :=
    truncate_subsampling_ok hbin vbin modes h1 h2
  obtain ⟨hs, he, heqh, hspan, hend, _, hwdvd, hpdvd, _⟩ :=
    adj_roi_axis_facts hstart hstop g.hlims.smin g.wdet g.hlims.sstep g.hlims.pstep hb hpp hwp
  obtain ⟨vs, ve, heqv, vspan, vend, _, vwdvd, vpdvd, _⟩ :=
    adj_roi_axis_facts vstart vstop g.vlims.smin g.hdet g.vlims.sstep g.vlims.pstep vb vpp vwp
  have hbpos : (0 : Int) < hb := by omega
  have vbpos : (0 : Int) < vb := by omega
  refine ⟨(hs * hb, he * hb, vs * vb, ve * vb, hb, vb), ?_, ?_⟩
  · simp only [trunc_roi, bind, Except.bind, ht, heqh, heqv, pure, Except.pure]
  · refine ⟨?_, ?_, hmemh, hmemv⟩
    · refine ⟨?_, ?_, ?_, ?_⟩ <;>
        simp only [mul_fdiv_cancel_pos _ _ hbpos]
      · exact hspan
      · exact fmod_eq_zero_of_dvd hpp (hpdvd (hpd hb hmemh))
      · exact fmod_eq_zero_of_dvd hwp (hwdvd hwm)
      · exact hend
    · refine ⟨?_, ?_, ?_, ?_⟩ <;>
        simp only [mul_fdiv_cancel_pos _ _ vbpos]
      · exact vspan
      · exact fmod_eq_zero_of_dvd vpp (vpdvd (vpd vb hmemv))
      · exact fmod_eq_zero_of_dvd vwp (vwdvd vwm)
      · exact vend

/-- Witness for C1 (amended) at a concrete input: geometry 16×16 with
limits `(minSize, sizeStep, positionStep) = (4, 2, 2)`, capability mask 0. -/
theorem trunc_roi_valid_witness :
    ∃ r, trunc_roi ⟨16, 16, ⟨4, 2, 2⟩, ⟨4, 2, 2⟩⟩ (get_supported_subsampling_modes 0)
        0 none 0 none 1 1 = .ok r ∧
      roiValid ⟨16, 16, ⟨4, 2, 2⟩, ⟨4, 2, 2⟩⟩ (get_supported_subsampling_modes 0) r :=
  trunc_roi_valid ⟨16, 16, ⟨4, 2, 2⟩, ⟨4, 2, 2⟩⟩ (get_supported_subsampling_modes 0)
    0 0 1 1 none none (by decide) (by decide) (by decide) (by decide) (by decide)
    (by decide) (by decide) (by decide) (by decide) (by decide)

/-- C2 (counterexample): negotiation is not idempotent.  With detector size
10, limits `(minSize, sizeStep, positionStep) = (3, 1, 2)`, factors `{1}`,
the request `(8, None, 8, None, 1, 1)` negotiates to `(7, 10, 7, 10, 1, 1)`
— whose start 7 is not aligned to the position step — and negotiating that
result again yields the different `(6, 10, 6, 10, 1, 1)`. -/
theorem trunc_roi_not_idempotent :
    trunc_roi ⟨10, 10, ⟨3, 1, 2⟩, ⟨3, 1, 2⟩⟩ (get_supported_subsampling_modes 0)
        8 none 8 none 1 1 = .ok (7, 10, 7, 10, 1, 1) ∧
    trunc_roi ⟨10, 10, ⟨3, 1, 2⟩, ⟨3, 1, 2⟩⟩ (get_supported_subsampling_modes 0)
        7 (some 10) 7 (some 10) 1 1 = .ok (6, 10, 6, 10, 1, 1) ∧
    (6, 10, 6, 10, 1, 1) ≠ ((7, 10, 7, 10, 1, 1) : Int × Int × Int × Int × Int × Int) := by
  refine ⟨by rfl, by rfl, by decide⟩

/-- C2 (amended): negotiation is idempotent for geometries whose limits are
hierarchically consistent — `positionStep ∣ sizeStep ∣ minSize`,
`0 ≤ minSize`, positive steps, and `positionStep` dividing the binned
detector extent for every supported factor — with supported factor lists
containing 1: renegotiating a negotiated ROI returns it unchanged. -/
theorem trunc_roi_idem (g : Geometry) (modes : List Int × List Int)
    (hstart vstart hbin vbin : Int) (hstop vstop : Option Int)
    (hs he vs ve hb vb : Int)
    (h1 : 1 ∈ modes.1) (h2 : 1 ∈ modes.2)
    (hpp : 0 < g.hlims.pstep) (hwp : 0 < g.hlims.sstep)
    (vpp : 0 < g.vlims.pstep) (vwp : 0 < g.vlims.sstep)
    (hm0 : 0 ≤ g.hlims.smin) (vm0 : 0 ≤ g.vlims.smin)
    (hpw : g.hlims.pstep ∣ g.hlims.sstep) (vpw : g.vlims.pstep ∣ g.vlims.sstep)
    (hwm : g.hlims.sstep ∣ g.hlims.smin) (vwm : g.vlims.sstep ∣ g.vlims.smin)
    (hpd : ∀ bb ∈ modes.1, g.hlims.pstep ∣ g.wdet.fdiv bb)
    (vpd : ∀ bb ∈ modes.2, g.vlims.pstep ∣ g.hdet.fdiv bb)
    (hr : trunc_roi g modes hstart hstop vstart vstop hbin vbin =
      .ok (hs, he, vs, ve, hb, vb)) :
    trunc_roi g modes hs (some he) vs (some ve) hb vb =
      .ok (hs, he, vs, ve, hb, vb) := by
  obtain ⟨hb', vb', ht, ⟨hmemh, h1h, _, _⟩, ⟨hmemv, h1v, _, _⟩⟩ :=
    truncate_subsampling_ok hbin vbin modes h1 h2
  obtain ⟨sh, eh, heqh, hspan, hend, hsle, hwdvd, hpdvd, hedvd⟩ :=
    adj_roi_axis_facts hstart hstop g.hlims.smin g.wdet g.hlims.sstep g.hlims.pstep hb' hpp hwp
  obtain ⟨sv, ev, heqv, vspan, vend, vsle, vwdvd, vpdvd, vedvd⟩ :=
    adj_roi_axis_facts vstart vstop g.vlims.smin g.hdet g.vlims.sstep g.vlims.pstep vb' vpp vwp
  have hr' : (sh * hb', eh * hb', sv * vb', ev * vb', hb', vb') =
      (hs, he, vs, ve, hb, vb) := by
    have : trunc_roi g modes hstart hstop vstart vstop hbin vbin =
        .ok (sh * hb', eh * hb', sv * vb', ev * vb', hb', vb') := by
      simp only [trunc_roi, bind, Except.bind, ht, heqh, heqv, pure, Except.pure]
    rw [this] at hr
    exact (Except.ok.injEq _ _).mp hr
  obtain ⟨hhs, hhe, hvs, hve, hhb, hvb⟩ :
      sh * hb' = hs ∧ eh * hb' = he ∧ sv * vb' = vs ∧ ev * vb' = ve ∧
        hb' = hb ∧ vb' = vb := by
    simpa using hr'
  rw [← hhb, ← hvb]
  have hbpos : (0 : Int) < hb' := by omega
  have vbpos : (0 : Int) < vb' := by omega
  have ht2 : truncate_subsampling hb' vb' modes = .ok (hb', vb') :=
    truncate_subsampling_fixed modes hb' vb' hmemh hmemv h1h h1v
  have hph : g.hlims.pstep ∣ g.hlims.smin := dvd_trans hpw hwm
  have vph : g.vlims.pstep ∣ g.vlims.smin := dvd_trans vpw vwm
  have hfixh : adjCore sh eh g.hlims.smin (g.wdet.fdiv hb') g.hlims.sstep g.hlims.pstep =
      (sh, eh) :=
    adjCore_fixed _ _ _ _ _ _ hpp hwp (hsle hm0) hend
      (hpdvd (dvd_sub (hpd hb' hmemh) hph)) (hedvd hpw hwm (hpd hb' hmemh))
      (hwdvd hwm) hspan
  have hfixv : adjCore sv ev g.vlims.smin (g.hdet.fdiv vb') g.vlims.sstep g.vlims.pstep =
      (sv, ev) :=
    adjCore_fixed _ _ _ _ _ _ vpp vwp (vsle vm0) vend
      (vpdvd (dvd_sub (vpd vb' hmemv) vph)) (vedvd vpw vwm (vpd vb' hmemv))
      (vwdvd vwm) vspan
  have hadjh : adj_roi_axis hs (some he) g.hlims.smin g.wdet g.hlims.sstep g.hlims.pstep hb' =
      (hs, he) := by
    rw [← hhs, ← hhe]
    simp only [adj_roi_axis, Option.getD_some, mul_fdiv_cancel_pos _ _ hbpos, hfixh]
  have hadjv : adj_roi_axis vs (some ve) g.vlims.smin g.hdet g.vlims.sstep g.vlims.pstep vb' =
      (vs, ve) := by
    rw [← hvs, ← hve]
    simp only [adj_roi_axis, Option.getD_some, mul_fdiv_cancel_pos _ _ vbpos, hfixv]
  simp only [trunc_roi, bind, Except.bind, ht2, hadjh, hadjv, pure, Except.pure]

/-- C3: the claim is right and the code is wrong.  `stop_acquisition`
(`uc480.py` line 322) evaluates `self._acq_in_progress()`, but
`_acq_in_progress` is a boolean attribute (assigned `True` in `__init__`
line 58 and in `start_acquisition` line 319, `False` in `stop_acquisition`
line 325), so *every* call — in particular the second of two consecutive
calls — raises `TypeError: 'bool' object is not callable` instead of being a
silent no-op. -/
theorem stop_acquisition_always_raises :
    stop_acquisition 0 initAcqState = .error .typeError ∧
    ∀ (devAcquired : Int) (s : AcqState),
      stop_acquisition devAcquired s = .error .typeError :=
  ⟨rfl, fun _ _ => rfl⟩

/-- Invariant of the allocation loop: starting from a state whose pool and
registered sequence coincide, the loop keeps them coinciding and never frees
anything — also when it exits with an allocation error. -/
theorem allocLoop_state (allocOk : Nat → Bool) :
    ∀ (k i : Nat) (bs fr : List Nat),
      ∃ bs', (allocLoop allocOk k i ⟨some bs, bs, fr⟩).2 = ⟨some bs', bs', fr⟩
  | 0, _, bs, fr => ⟨bs, rfl⟩
  | k + 1, i, bs, fr => by
      by_cases h : allocOk i
      · obtain ⟨bs', hb⟩ := allocLoop_state allocOk k (i + 1) (bs ++ [i]) fr
        refine ⟨bs', ?_⟩
        simp only [allocLoop, if_pos h]
        convert hb using 3
      · exact ⟨bs, by simp only [allocLoop, if_neg h]⟩

/-- The state component of `_allocate_buffers` is the state left by its
allocation loop, both on success and on error. -/
theorem allocate_buffers_snd (allocOk : Nat → Bool) (n : Nat) (s : BufState) :
    (allocate_buffers allocOk n s).2 =
      (allocLoop allocOk n 0
        { deallocate_buffers s with buffers := some ([] : List Nat) }).2 := by
  simp only [allocate_buffers]
  rcases hl : allocLoop allocOk n 0
      { deallocate_buffers s with buffers := some ([] : List Nat) } with ⟨r, s3⟩
  cases r <;> simp

/-- C4 (counterexample): no rollback happens.  With a device that accepts
the first buffer and rejects the second, allocating 2 buffers from an empty
state fails with the SDK error, and afterwards `self._buffers` still holds
the first buffer, which is still registered in the capture sequence and has
not been freed. -/
theorem allocate_buffers_no_rollback :
    (allocate_buffers (fun i => i == 0) 2 ⟨none, [], []⟩).1 = .error (.libError 1) ∧
    (allocate_buffers (fun i => i == 0) 2 ⟨none, [], []⟩).2.buffers = some [0] ∧
    (allocate_buffers (fun i => i == 0) 2 ⟨none, [], []⟩).2.seq = [0] ∧
    (allocate_buffers (fun i => i == 0) 2 ⟨none, [], []⟩).2.freed = [] :=
  ⟨rfl, rfl, rfl, rfl⟩

/-- C4 (amended): when the device rejects a buffer, the SDK error
(`uc480LibError`, not a dedicated `AllocationError`) propagates and the
partial pool is *not* rolled back: the buffers allocated before the failure
stay in `self._buffers` and in the capture sequence and nothing is freed by
the failing call; they are reclaimed only by the next `_deallocate_buffers`
(which every later `_allocate_buffers` performs first).  The hypothesis
`hwf` states the evident well-formedness of the input state (an absent pool
registers no sequence entries). -/
theorem allocate_buffers_error_state (allocOk : Nat → Bool) (n : Nat) (s : BufState)
    (e : PyErr) (s' : BufState)
    (hwf : s.buffers = none → s.seq = [])
    (h : allocate_buffers allocOk n s = (.error e, s')) :
    ∃ bs, s'.buffers = some bs ∧ s'.seq = bs ∧
      s'.freed = (deallocate_buffers s).freed ∧
      deallocate_buffers s' = ⟨none, [], s'.freed ++ bs⟩ := by
  have hseq : { deallocate_buffers s with buffers := some ([] : List Nat) } =
      (⟨some [], [], (deallocate_buffers s).freed⟩ : BufState) := by
    rcases hs : s.buffers with _ | bs0
    · have h0 := hwf hs
      simp [deallocate_buffers, hs, h0]
    · simp [deallocate_buffers, hs]
  obtain ⟨bs, hb⟩ := allocLoop_state allocOk n 0 [] (deallocate_buffers s).freed
  have hs' : s' = (allocLoop allocOk n 0
      { deallocate_buffers s with buffers := some ([] : List Nat) }).2 := by
    have := allocate_buffers_snd allocOk n s
    rw [h] at this
    exact this
  rw [hseq] at hs'
  rw [hb] at hs'
  refine ⟨bs, by rw [hs'], by rw [hs'], by rw [hs'], ?_⟩
  rw [hs']
  simp [deallocate_buffers]

/-- Witness for C4 (amended) at the concrete failing allocation. -/
theorem allocate_buffers_error_state_witness :
    ∃ bs, (⟨some [0], [0], []⟩ : BufState).buffers = some bs ∧
      (⟨some [0], [0], []⟩ : BufState).seq = bs ∧
      (⟨some [0], [0], []⟩ : BufState).freed =
        (deallocate_buffers ⟨none, [], []⟩).freed ∧
      deallocate_buffers ⟨some [0], [0], []⟩ =
        ⟨none, [], (⟨some [0], [0], []⟩ : BufState).freed ++ bs⟩ :=
  allocate_buffers_error_state (fun i => i == 0) 2 ⟨none, [], []⟩ (.libError 1)
    ⟨some [0], [0], []⟩ (fun _ => rfl) rfl

/-- C5: mutual exclusivity of binning and subsampling.  Activating either
mode with a non-trivial applied factor pair resets the other mode's factors
to `(1,1)` (via the SDK's hardware behaviour modelled in
`lib_SetSubSampling` / `lib_SetBinning`), and `_set_roi_binning` resets the
inactive mode explicitly by calling its setter with the default `(1,1)`
factors. -/
theorem mode_setters_mutually_exclusive
    (submodes binmodes : List Int × List Int) (hf vf : Int) (s : ModeState)
    (hsb1 : 1 ∈ submodes.1) (hsb2 : 1 ∈ submodes.2)
    (hbb1 : 1 ∈ binmodes.1) (hbb2 : 1 ∈ binmodes.2) :
    (∀ s', set_subsampling submodes hf vf s = .ok s' →
      s'.sub ≠ (1, 1) → s'.bin = (1, 1)) ∧
    (∀ s', set_binning binmodes hf vf s = .ok s' →
      s'.bin ≠ (1, 1) → s'.sub = (1, 1)) ∧
    (∀ s', set_roi_binning .subsample submodes binmodes hf vf s = .ok s' →
      s'.bin = (1, 1)) ∧
    (∀ s', set_roi_binning .bin submodes binmodes hf vf s = .ok s' →
      s'.sub = (1, 1)) := by
  have htb1 : truncate_subsampling 1 1 binmodes = .ok (1, 1) :=
    truncate_subsampling_fixed binmodes 1 1 hbb1 hbb2 (le_refl 1) (le_refl 1)
  have hts1 : truncate_subsampling 1 1 submodes = .ok (1, 1) :=
    truncate_subsampling_fixed submodes 1 1 hsb1 hsb2 (le_refl 1) (le_refl 1)
  refine ⟨?_, ?_, ?_, ?_⟩
  · intro s' hok hne
    rcases ht : truncate_subsampling hf vf submodes with e | f
    · rw [set_subsampling, ht] at hok
      cases hok
    · rw [set_subsampling, ht] at hok
      have hs' : s' = lib_SetSubSampling f s := by
        cases hok
        rfl
      subst hs'
      have hf1 : f ≠ (1, 1) := by
        intro hf1
        exact hne (by simp [lib_SetSubSampling, hf1])
      simp only [lib_SetSubSampling]
      rw [if_neg hf1]
  · intro s' hok hne
    rcases ht : truncate_subsampling hf vf binmodes with e | f
    · rw [set_binning, ht] at hok
      cases hok
    · rw [set_binning, ht] at hok
      have hs' : s' = lib_SetBinning f s := by
        cases hok
        rfl
      subst hs'
      have hf1 : f ≠ (1, 1) := by
        intro hf1
        exact hne (by simp [lib_SetBinning, hf1])
      simp only [lib_SetBinning]
      rw [if_neg hf1]
  · intro s' hok
    rcases ht : truncate_subsampling hf vf submodes with e | f
    · rw [set_roi_binning, set_subsampling, ht] at hok
      cases hok
    · rw [set_roi_binning, set_subsampling, ht] at hok
      simp only [bind, Except.bind, set_binning, htb1] at hok
      cases hok
      rfl
  · intro s' hok
    rcases ht : truncate_subsampling hf vf binmodes with e | f
    · rw [set_roi_binning, set_subsampling, hts1] at hok
      simp only [bind, Except.bind, set_binning, ht] at hok
      cases hok
    · rw [set_roi_binning, set_subsampling, hts1] at hok
      simp only [bind, Except.bind, set_binning, ht] at hok
      cases hok
      simp only [lib_SetBinning, lib_SetSubSampling]
      by_cases hf1 : f = (1, 1)
      · rw [if_pos hf1]
      · rw [if_neg hf1]

/-- Witness for C5 at a concrete input: requesting 2×2 binning on a device
supporting factors `{1,2}` in both modes, from a state with non-trivial
subsampling, applies binning `(2,2)` and resets subsampling to `(1,1)`. -/
theorem mode_setters_mutually_exclusive_witness :
    (⟨(1, 1), (2, 2)⟩ : ModeState).sub = (1, 1) :=
  (mode_setters_mutually_exclusive ([1, 2], [1, 2]) ([1, 2], [1, 2]) 2 2
      ⟨(2, 2), (1, 1)⟩ (by decide) (by decide) (by decide) (by decide)).2.1
    ⟨(1, 1), (2, 2)⟩ rfl (by decide)

/-- Witness for C2 (amended) at a concrete input: geometry 16×16 with
limits `(4, 2, 2)`, capability mask 0, full-frame request. -/
theorem trunc_roi_idem_witness :
    trunc_roi ⟨16, 16, ⟨4, 2, 2⟩, ⟨4, 2, 2⟩⟩ (get_supported_subsampling_modes 0)
      0 (some 16) 0 (some 16) 1 1 = .ok (0, 16, 0, 16, 1, 1) :=
  trunc_roi_idem ⟨16, 16, ⟨4, 2, 2⟩, ⟨4, 2, 2⟩⟩ (get_supported_subsampling_modes 0)
    0 0 1 1 none none 0 16 0 16 1 1
    (by decide) (by decide) (by decide) (by decide) (by decide) (by decide)
    (by decide) (by decide) (by decide) (by decide) (by decide) (by decide)
    (by decide) (by decide) (by rfl)

/-- C6 (counterexample): with the non-empty supported factor set `{2}` on
both axes and requested factors `(1, 1)`, the list comprehension
`[m for m in modes if m <= 1]` is empty and Python's `max()` raises
`ValueError` — the code does not fall back to the smallest available factor
and does fail. -/
theorem truncate_subsampling_fails_below_min :
    truncate_subsampling 1 1 ([2], [2]) = .error .valueError := rfl

/-- C6 (amended): for factor lists containing 1 — as every
capability-mask-derived supported set does — `_truncate_subsampling` never
fails and returns, per axis, the largest supported factor `<=` the requested
factor raised to at least 1.  (When a list's minimum exceeds the raised
request the code raises `ValueError` instead of picking the smallest
factor.) -/
theorem truncate_subsampling_largest_le (hsub vsub : Int) (modes : List Int × List Int)
    (h1 : 1 ∈ modes.1) (h2 : 1 ∈ modes.2) :
    ∃ hb vb, truncate_subsampling hsub vsub modes = .ok (hb, vb) ∧
      (hb ∈ modes.1 ∧ hb ≤ max hsub 1 ∧ ∀ m ∈ modes.1, m ≤ max hsub 1 → m ≤ hb) ∧
      (vb ∈ modes.2 ∧ vb ≤ max vsub 1 ∧ ∀ m ∈ modes.2, m ≤ max vsub 1 → m ≤ vb) := by
  obtain ⟨hb, vb, ht, ⟨m1, _, l1, u1⟩, ⟨m2, _, l2, u2⟩⟩ :=
    truncate_subsampling_ok hsub vsub modes h1 h2
  exact ⟨hb, vb, ht, ⟨m1, l1, u1⟩, ⟨m2, l2, u2⟩⟩

/-- Witness for C6 (amended): requesting `(3, 5)` against supported sets
`({1,2,4}, {1,2})` returns `(2, 2)` — the largest supported factors below
the requests. -/
theorem truncate_subsampling_largest_le_witness :
    ∃ hb vb, truncate_subsampling 3 5 ([1, 2, 4], [1, 2]) = .ok (hb, vb) ∧
      (hb ∈ ([1, 2, 4] : List Int) ∧ hb ≤ max 3 1 ∧
        ∀ m ∈ ([1, 2, 4] : List Int), m ≤ max 3 1 → m ≤ hb) ∧
      (vb ∈ ([1, 2] : List Int) ∧ vb ≤ max 5 1 ∧
        ∀ m ∈ ([1, 2] : List Int), m ≤ max 5 1 → m ≤ vb) :=
  truncate_subsampling_largest_le 3 5 ([1, 2, 4], [1, 2]) (by decide) (by decide)

/-- C7: the claim is right and the code is wrong for binning.
`get_supported_binning_modes` documents "Return tuple ``(horizontal,
vertical)``" (`uc480.py` line 397) but returns
`sorted(supp["v"]), sorted(supp["h"])` (line 404) — the vertical list first.
With capability mask `0x0001` (only 2× vertical binning supported) the
horizontal supported list is `[1]` and the vertical one `[1, 2]`, yet the
function returns `([1, 2], [1])`, which is not the documented
`(horizontal, vertical)` pair.  (`get_supported_subsampling_modes`, by
contrast, returns `(horizontal, vertical)` as documented.) -/
theorem get_supported_binning_modes_swapped :
    get_supported_binning_modes 1 = ([1, 2], [1]) ∧
    supportedFactors binMask .h 1 = [1] ∧
    supportedFactors binMask .v 1 = [1, 2] ∧
    (([1, 2], [1]) : List Int × List Int) ≠
      (supportedFactors binMask .h 1, supportedFactors binMask .v 1) :=
  ⟨rfl, rfl, rfl, by decide⟩

/-- C8 (counterexample): `rgb10p` is a fixed-size format with table entry
`(bitDepth, channels) = (24, 1)`, but decoding it raises `KeyError` because
the per-channel width 24 is not a key of `_np_dtypes` — no array of
element byte-width `24/1/8 = 3` is produced, so the claim fails as
universally quantified over fixed-size formats. -/
theorem read_buffer_decode_keyerror_24bit :
    mode_properties "rgb10p" = some (some (24, 1)) ∧
    read_buffer_decode "rgb10p" 64 48 = .error .keyError :=
  ⟨rfl, rfl⟩

/-- C8 (amended): for every fixed-size pixel format whose per-channel width
`bitDepth/channelCount` is 8, 16 or 32 bits (every fixed-size table entry
except the 24-bit-packed `rgb10p`/`bgr10p`), decoding a `width × height`
frame produces an array of shape `(height, width)` when `channelCount = 1`
and `(height, width, channelCount)` otherwise, with element byte width
`bitDepth/channelCount/8`. -/
theorem read_buffer_decode_shape (mode : String) (bpp nchan width height : Nat)
    (hmode : mode_properties mode = some (some (bpp, nchan)))
    (hwidth : bpp / nchan = 8 ∨ bpp / nchan = 16 ∨ bpp / nchan = 32) :
    read_buffer_decode mode width height =
      .ok ((if nchan > 1 then [height, width, nchan] else [height, width]),
        bpp / nchan / 8) := by
  have hg : get_pixel_mode_settings mode = .ok (bpp, nchan) := by
    simp [get_pixel_mode_settings, hmode]
  simp only [read_buffer_decode, bind, Except.bind, hg]
  rcases hwidth with h | h | h <;> simp [np_dtypes, h, pure, Except.pure]

/-- Witness for C8 (amended), Scenario D of the spec: `mono16`
(bitDepth 16, 1 channel), 64×48 frame → shape `(48, 64)`, 2-byte
elements. -/
theorem read_buffer_decode_shape_witness :
    read_buffer_decode "mono16" 64 48 = .ok ([48, 64], 2) := by
  have h := read_buffer_decode_shape "mono16" 16 1 64 48 rfl (Or.inr (Or.inl rfl))
  simpa using h

/-- The probe loop completes without raising whenever every candidate's set
either succeeds or fails with `IS_INVALID_COLOR_FORMAT`. -/
theorem probeLoop_ok (invalid : Int) (resp : Int → Except Int Int) :
    ∀ (cs : List (String × Int)) (cur : Int) (acc : List String),
      (∀ nm ∈ cs, (∃ a, resp nm.2 = .ok a) ∨ resp nm.2 = .error invalid) →
      ∃ names cur', probeLoop invalid resp cs cur acc = .ok (names, cur')
  | [], cur, acc, _ => ⟨acc.reverse, cur, rfl⟩
  | (n, m) :: rest, cur, acc, hok => by
      have hrest : ∀ nm ∈ rest, (∃ a, resp nm.2 = .ok a) ∨ resp nm.2 = .error invalid :=
        fun nm hnm => hok nm (List.mem_cons_of_mem _ hnm)
      rcases hok (n, m) (List.mem_cons_self _ _) with ⟨a, ha⟩ | ha
      · obtain ⟨names, cur', h⟩ :=
          probeLoop_ok invalid resp rest a (if m = a then n :: acc else acc) hrest
        exact ⟨names, cur', by simp only [probeLoop, ha]; exact h⟩
      · obtain ⟨names, cur', h⟩ := probeLoop_ok invalid resp rest cur acc hrest
        refine ⟨names, cur', ?_⟩
        simp only [probeLoop, ha, if_pos rfl]
        exact h

/-- C9 (counterexample): restoration is skipped when a probe raises an error
other than `IS_INVALID_COLOR_FORMAT` (there is no `finally`).  With original
mode 3, candidates `a ↦ 5` (accepted) and `b ↦ 6` (failing with code
`1 ≠ 174`), the function re-raises and the device is left in mode 5, not the
original mode 3. -/
theorem check_all_color_modes_not_restored :
    check_all_color_modes 174
        (fun m => if m = 5 then .ok 5 else if m = 3 then .ok 3 else .error 1)
        [("a", 5), ("b", 6)] 3 = .error (1, 5) ∧
    (5 : Int) ≠ 3 :=
  ⟨rfl, by decide⟩

/-- C9 (amended): the original color mode is restored whenever every probe
attempt either succeeds or fails with `IS_INVALID_COLOR_FORMAT`, and
re-applying the original mode yields it back; a probe failing with any other
code propagates out before the restoring set. -/
theorem check_all_color_modes_restores (invalid : Int) (resp : Int → Except Int Int)
    (candidates : List (String × Int)) (m0 : Int)
    (hok : ∀ nm ∈ candidates, (∃ a, resp nm.2 = .ok a) ∨ resp nm.2 = .error invalid)
    (hm0 : resp m0 = .ok m0) :
    ∃ names, check_all_color_modes invalid resp candidates m0 = .ok (names, m0) := by
  obtain ⟨names, cur', hp⟩ := probeLoop_ok invalid resp candidates m0 [] hok
  refine ⟨names, ?_⟩
  simp only [check_all_color_modes, hp, hm0]

/-- Witness for C9 (amended): a device accepting every mode restores the
original mode 3 after probing one candidate. -/
theorem check_all_color_modes_restores_witness :
    ∃ names, check_all_color_modes 174 (fun m => .ok m) [("a", 5)] 3 =
      .ok (names, 3) :=
  check_all_color_modes_restores 174 (fun m => .ok m) [("a", 5)] 3
    (fun nm _ => Or.inl ⟨nm.2, rfl⟩) rfl

/-- C10: for every capability bitmask, factor 1 belongs to both per-axis
supported lists for subsampling and for binning (its table mask is 0 and
`mask & 0 == 0` always holds), and consequently `_truncate_subsampling`
applied to either derived factor-set pair never reaches its empty-`max`
error branch and always returns factors `>= 1`. -/
theorem factor_one_supported_truncation_total :
    ∀ mask : Nat,
      (1 ∈ (get_supported_subsampling_modes mask).1 ∧
        1 ∈ (get_supported_subsampling_modes mask).2 ∧
        1 ∈ (get_supported_binning_modes mask).1 ∧
        1 ∈ (get_supported_binning_modes mask).2) ∧
      ∀ hsub vsub : Int,
        (∃ hb vb, truncate_subsampling hsub vsub (get_supported_subsampling_modes mask) =
          .ok (hb, vb) ∧ 1 ≤ hb ∧ 1 ≤ vb) ∧
        (∃ hb vb, truncate_subsampling hsub vsub (get_supported_binning_modes mask) =
          .ok (hb, vb) ∧ 1 ≤ hb ∧ 1 ≤ vb) := by
  intro mask
  refine ⟨⟨one_mem_sub_h mask, one_mem_sub_v mask, one_mem_bin_1 mask, one_mem_bin_2 mask⟩, ?_⟩
  intro hsub vsub
  constructor
  · obtain ⟨hb, vb, ht, ⟨_, h1h, _, _⟩, ⟨_, h1v, _, _⟩⟩ :=
      truncate_subsampling_ok hsub vsub _ (one_mem_sub_h mask) (one_mem_sub_v mask)
    exact ⟨hb, vb, ht, h1h, h1v⟩
  · obtain ⟨hb, vb, ht, ⟨_, h1h, _, _⟩, ⟨_, h1v, _, _⟩⟩ :=
      truncate_subsampling_ok hsub vsub _ (one_mem_bin_1 mask) (one_mem_bin_2 mask)
    exact ⟨hb, vb, ht, h1h, h1v⟩

end UC480
